import Mathlib

/-!
# Verification of the LIMITED_FE optimistic-collection core

A shallow embedding, in Lean 4, of the parts of the repository the frozen
claims are about:

* `src/utils/supabase/realtime.ts` — the generic optimistic collection
  helpers `optimisticAdd`, `optimisticUpdate`, `optimisticDelete`,
  `rollbackOptimistic`;
* the issues hook (`useIssues`): the `createIssue` / `updateIssue` /
  `deleteIssue` reconciliation flows and the DELETE change-feed handler;
* the kanban board's `handleDragEnd` (drop on a column, drop on an issue);
* the `POST /api/teams` route's validation and compensating rollback, and
  the `useTeams.createTeam` hook's rollback;
* `src/utils/performance.ts` — the `PerformanceMonitor` bounded buffers.

External calls (the hosted database, fetch) are modelled by passing their
results as explicit parameters; React state updates become explicit state
passing, so each hook flow is a function from the pre-state and the
external outcomes to the post-state together with the returned /
thrown result.
-/

namespace LimitedFE

/-! ## Generic optimistic collection helpers (`src/utils/supabase/realtime.ts`)

The TS functions are generic over `T extends { id: string }` and over the
patch shape `Partial<T>`; the Lean embedding is generic over the element
type `α` with an explicit id projection `getId`, and over the patch type
`π` with an explicit merge `applyPatch` standing for the object spread
`{ ...item, ...updates }`. -/

/-- The helper `optimisticAdd(items, newItem) = [...items, newItem]`
(realtime.ts lines 126–131). -/
def optimisticAdd {α : Type} (items : List α) (newItem : α) : List α :=
  items ++ [newItem]

/-- The helper `optimisticUpdate(items, itemId, updates)` maps over the array and
spreads the patch into the matching item (realtime.ts lines 148–156). -/
def optimisticUpdate {α π : Type} (getId : α → String) (applyPatch : α → π → α)
    (items : List α) (itemId : String) (updates : π) : List α :=
  items.map fun item => if getId item = itemId then applyPatch item updates else item

/-- The helper `optimisticDelete(items, itemId)` filters out the matching item
(realtime.ts lines 172–177). -/
def optimisticDelete {α : Type} (getId : α → String)
    (items : List α) (itemId : String) : List α :=
  items.filter fun item => getId item ≠ itemId

/-- The helper `rollbackOptimistic(setItems, previousItems)` calls
`setItems(previousItems)`: the collection state afterwards is exactly the
snapshot (realtime.ts lines 197–202). -/
def rollbackOptimistic {α : Type} (previousItems : List α) : List α :=
  previousItems

/-! ## Concrete items for the Ordered Collection Store claims

The store's records are `{ id: string, ...payload }`; the payload is kept
abstract as one field. A `Partial` patch over such a record may override
the id and/or the payload. -/

/-- A record of the Ordered Collection Store: an id plus an abstract payload. -/
structure Item (α : Type) where
  id : String
  payload : α
deriving DecidableEq, Repr

/-- A `Partial<Item>` patch: each field optionally overridden. -/
structure ItemPatch (α : Type) where
  id : Option String := none
  payload : Option α := none
deriving DecidableEq, Repr

/-- The object spread `{ ...item, ...updates }` for `Item`. -/
def itemApplyPatch {α : Type} (item : Item α) (p : ItemPatch α) : Item α :=
  { id := p.id.getD item.id, payload := p.payload.getD item.payload }

/-- The ids of a collection, in collection order. -/
def idsOf {α : Type} (items : List (Item α)) : List String :=
  items.map Item.id

/-- One operation of the Ordered Collection Store. -/
inductive CollOp (α : Type) where
  | add (item : Item α)
  | update (itemId : String) (patch : ItemPatch α)
  | remove (itemId : String)
deriving DecidableEq, Repr

/-- Applying one store operation (the realtime.ts helpers instantiated
at `Item`). -/
def applyCollOp {α : Type} [DecidableEq α] (items : List (Item α)) :
    CollOp α → List (Item α)
  | .add item => optimisticAdd items item
  | .update itemId patch => optimisticUpdate Item.id itemApplyPatch items itemId patch
  | .remove itemId => optimisticDelete Item.id items itemId

/-- Applying a sequence of store operations, oldest first. -/
def applyCollOps {α : Type} [DecidableEq α]
    (items : List (Item α)) (ops : List (CollOp α)) : List (Item α) :=
  ops.foldl applyCollOp items

/-- The expected id list after one operation: an add appends its id, a
remove erases its id, an update leaves the ids alone. -/
def expectedIdsStep {α : Type} (ids : List String) : CollOp α → List String
  | .add item => ids ++ [item.id]
  | .update _ _ => ids
  | .remove itemId => ids.filter fun i => i ≠ itemId

/-- The expected id list after a sequence of operations. -/
def expectedIds {α : Type} (ids : List String) (ops : List (CollOp α)) : List String :=
  ops.foldl expectedIdsStep ids

/-- A trace is safe when every add happens at a moment its id is absent and
no update patches the id field (the intended use of the store: adds carry a
fresh client-temporary or server id, patches never rename). -/
def safeTrace {α : Type} [DecidableEq α] :
    List (Item α) → List (CollOp α) → Prop
  | _, [] => True
  | items, op :: rest =>
    (match op with
     | .add item => item.id ∉ idsOf items
     | .update _ patch => patch.id = none
     | .remove _ => True) ∧ safeTrace (applyCollOp items op) rest

instance {α : Type} [DecidableEq α] (items : List (Item α)) (ops : List (CollOp α)) :
    Decidable (safeTrace items ops) := by
  induction ops generalizing items with
  | nil => exact isTrue trivial
  | cons op rest ih =>
    have : Decidable (safeTrace (applyCollOp items op) rest) := ih _
    unfold safeTrace
    cases op <;> exact instDecidableAnd

/-! ## The issues data model (`src/types/database.types.ts`, table `issues`)

The row fields of the `issues` table. The joined relations (`status`,
`assignee`, `reporter` objects) carried alongside the row in the hook's
`Issue` type play no role in the claims and are not modelled. The `order`
column is a string-encoded rank. -/

/-- An issue row (database.types.ts, table `issues`). -/
structure Issue where
  id : String
  project_id : String
  title : String
  description : Option String
  status_id : String
  priority : String
  assignee_id : Option String
  reporter_id : String
  order : String
  created_at : String
  updated_at : String
deriving DecidableEq, Repr

/-- The caller-supplied fields of `createIssue`
(`Pick<IssueInsert, "title" | "description" | "status_id" | "priority"
| "assignee_id" | "reporter_id">`). -/
structure IssueInput where
  title : String
  description : Option String
  status_id : String
  priority : String
  assignee_id : Option String
  reporter_id : String
deriving DecidableEq, Repr

/-- The `updateIssue` patch
(`Partial<Pick<IssueInsert, "title" | "description" | "status_id"
| "priority" | "assignee_id">>`). -/
structure IssuePatch where
  title : Option String := none
  description : Option (Option String) := none
  status_id : Option String := none
  priority : Option String := none
  assignee_id : Option (Option String) := none
deriving DecidableEq, Repr

/-- The spread `{ ...issue, ...updates, updated_at: now }` performed by the
optimistic branch of `updateIssue` (part_002 lines 281–286). -/
def applyIssuePatch (issue : Issue) (p : IssuePatch) (nowIso : String) : Issue :=
  { issue with
    title := p.title.getD issue.title
    description := p.description.getD issue.description
    status_id := p.status_id.getD issue.status_id
    priority := p.priority.getD issue.priority
    assignee_id := p.assignee_id.getD issue.assignee_id
    updated_at := nowIso }

/-- JavaScript `parseInt` restricted to base-10 input as the order strings
use it: leading whitespace skipped, an optional sign, then the longest
digit run; `none` models `NaN` (no digit found). -/
def jsParseInt (s : String) : Option Int :=
  let chars := (s.data).dropWhile (fun c => c = ' ')
  let signed : Bool × List Char :=
    match chars with
    | '-' :: rest => (true, rest)
    | '+' :: rest => (false, rest)
    | rest => (false, rest)
  let digits := signed.2.takeWhile Char.isDigit
  if digits.isEmpty then none
  else
    let n : Nat := digits.foldl (fun acc c => acc * 10 + (c.toNat - 48)) 0
    some (if signed.1 then -(n : Int) else (n : Int))

/-- The new order computed by `createIssue` (part_002 lines 185–195):
`maxOrder = existingIssues?.[0]?.order || "0"`, then
`(parseInt(maxOrder) + 1).toString()`. `laneTopOrder` is the `order` of the
first row the database returned for the lane (sorted descending), `none`
when the lane query returned no row. -/
def createIssueNewOrder (laneTopOrder : Option String) : String :=
  let maxOrder := match laneTopOrder with
    | some s => if s = "" then "0" else s
    | none => "0"
  match jsParseInt maxOrder with
  | some n => toString (n + 1)
  | none => "NaN"

/-! ## The `useIssues` reconciliation flows (part_002)

Each flow becomes a function from the pre-state (`issues`), the inputs and
the outcome of the authoritative request to the post-state paired with the
result the caller sees (`Except` models return vs. throw). The clock
(`Date.now()` / `new Date().toISOString()`) is passed in as `now` /
`nowIso`. -/

/-- The client-temporary id `` `temp-${Date.now()}` `` (part_002 line 199). -/
def tempIssueId (now : Nat) : String :=
  "temp-" ++ toString now

/-- The flow of `createIssue` (part_002 lines 175–264): computes the new order, builds
the optimistic issue with a temp id, snapshots, applies `optimisticAdd`,
then on server success replaces the temp entry by the returned row, on
failure rolls back to the snapshot and rethrows. -/
def createIssueRun (projectId : String) (issues : List Issue) (input : IssueInput)
    (laneTopOrder : Option String) (now : Nat) (nowIso : String)
    (serverResult : Except String Issue) : List Issue × Except String Issue :=
  let newOrder := createIssueNewOrder laneTopOrder
  let optimisticIssue : Issue :=
    { id := tempIssueId now
      project_id := projectId
      title := input.title
      description := input.description
      status_id := input.status_id
      priority := input.priority
      assignee_id := input.assignee_id
      reporter_id := input.reporter_id
      order := newOrder
      created_at := nowIso
      updated_at := nowIso }
  let previousIssues := issues
  let afterOptimistic := optimisticAdd issues optimisticIssue
  match serverResult with
  | .ok data =>
    (afterOptimistic.map fun issue =>
      if issue.id = optimisticIssue.id then data else issue, .ok data)
  | .error e => (rollbackOptimistic previousIssues, .error e)

/-- The flow of `updateIssue` (part_002 lines 266–328): snapshots, applies
`optimisticUpdate` with the patch plus a fresh `updated_at`, then on server
success replaces the matching entry by the returned row, on failure rolls
back and rethrows. -/
def updateIssueRun (issues : List Issue) (issueId : String) (updates : IssuePatch)
    (nowIso : String) (serverResult : Except String Issue) :
    List Issue × Except String Issue :=
  let previousIssues := issues
  let afterOptimistic :=
    optimisticUpdate Issue.id (fun i p => applyIssuePatch i p nowIso) issues issueId updates
  match serverResult with
  | .ok data =>
    (afterOptimistic.map fun issue => if issue.id = issueId then data else issue, .ok data)
  | .error e => (rollbackOptimistic previousIssues, .error e)

/-- The flow of `deleteIssue` (part_002 lines 330–348): snapshots, applies
`optimisticDelete`, and on failure rolls back and rethrows. -/
def deleteIssueRun (issues : List Issue) (issueId : String)
    (serverError : Option String) : List Issue × Except String Unit :=
  let previousIssues := issues
  let afterOptimistic := optimisticDelete Issue.id issues issueId
  match serverError with
  | none => (afterOptimistic, .ok ())
  | some e => (rollbackOptimistic previousIssues, .error e)

/-- The DELETE change-feed handler (part_002 lines 154–166):
`setIssues(prev => prev.filter(issue => issue.id !== payload.old.id))`. -/
def deleteEventHandler (issues : List Issue) (deletedId : String) : List Issue :=
  issues.filter fun issue => issue.id ≠ deletedId

/-! ## The kanban board's `handleDragEnd` (part_015, lines 121–183)

The component groups `issues` by `status_id` (the `reduce` at lines 63–72
pushes each issue onto its status bucket in list order, so a bucket is the
sublist of issues with that status, in order). `handleDragEnd` then calls
`onIssueMove(issueId, statusId, order)` at most once; the embedding
returns those call arguments, `none` when no call happens. -/

/-- The lane (status bucket) for a status id: the `issuesByStatus` record
entry built by the `reduce` at part_015 lines 63–72 (`[]` when absent). -/
def laneIssues (issues : List Issue) (statusId : String) : List Issue :=
  issues.filter fun issue => issue.status_id = statusId

/-- JavaScript `String.prototype.startsWith` over the character list. -/
def strHasLeading (s marker : String) : Bool :=
  s.data.take marker.data.length == marker.data

/-- Dropping the first `n` characters of a string; under a positive
`strHasLeading s "status-"` test this is exactly
`s.replace("status-", "")`, because the first occurrence then sits at the
front of the string. -/
def strDropChars (s : String) (n : Nat) : String :=
  String.mk (s.data.drop n)

/-- The arguments of the single `onIssueMove` call `handleDragEnd` makes
(part_015 lines 121–183), `none` when it returns without calling:
* drop on a status column: the target lane's issue count plus one;
* drop on an issue of the same lane: the target index plus one (only when
  the index changed);
* drop on an issue of a different lane: the target issue's index in its
  lane plus one. -/
def handleDragEnd (issues : List Issue) (activeId overId : String) :
    Option (String × String × String) :=
  match issues.find? (fun issue => issue.id = activeId) with
  | none => none
  | some activeIssue =>
    if strHasLeading overId "status-" then
      let newStatusId := strDropChars overId 7
      let newStatusIssues := laneIssues issues newStatusId
      let newOrder := toString (newStatusIssues.length + 1)
      some (activeId, newStatusId, newOrder)
    else
      match issues.find? (fun issue => issue.id = overId) with
      | none => none
      | some overIssue =>
        if activeIssue.status_id = overIssue.status_id then
          let statusIssues := laneIssues issues activeIssue.status_id
          let oldIndex := statusIssues.findIdx fun issue => issue.id = activeId
          let newIndex := statusIssues.findIdx fun issue => issue.id = overId
          if oldIndex ≠ newIndex then
            some (activeId, activeIssue.status_id, toString (newIndex + 1))
          else
            none
        else
          let newStatusIssues := laneIssues issues overIssue.status_id
          let overIndex := newStatusIssues.findIdx fun issue => issue.id = overId
          some (activeId, overIssue.status_id, toString (overIndex + 1))

/-- The numeric reading of a string-encoded rank (the spec compares ranks
as numbers and the code manipulates them through `parseInt`); a
non-numeric rank reads as 0. -/
def rank (s : String) : Int :=
  (jsParseInt s).getD 0

/-! ## `POST /api/teams` (part_008, lines 57–156) and `useTeams.createTeam`

The JSON body fields are JavaScript values; only the shapes the validation
distinguishes are modelled (string, number, boolean, null, absent field).
The route's external calls (team insert, member insert, compensating team
delete) are modelled by their outcomes; the function returns the list of
team ids the handler deleted (the compensations it issued) together with
the HTTP status it responded with. -/

/-- A JSON body field as JavaScript sees it. -/
inductive JVal where
  | jstr (s : String)
  | jnum (n : Int)
  | jbool (b : Bool)
  | jnull
  | jundefined
deriving DecidableEq, Repr

/-- JavaScript truthiness of a body field (`NaN` is unrepresentable here
and irrelevant to the route). -/
def truthy : JVal → Bool
  | .jstr s => s ≠ ""
  | .jnum n => n ≠ 0
  | .jbool b => b
  | .jnull => false
  | .jundefined => false

/-- The test `typeof v === "string"`. -/
def isStringVal : JVal → Bool
  | .jstr _ => true
  | _ => false

/-- The string content of a field (meaningful only under `isStringVal`). -/
def strVal : JVal → String
  | .jstr s => s
  | _ => ""

/-- The outcome of the route's validation section. -/
inductive TeamValidation where
  | badRequest (msg : String)
  | valid
deriving DecidableEq, Repr

/-- The validation section of `POST /api/teams` (part_008 lines 79–100):
`!name || typeof name !== "string"`, then the 2–50 length window, then the
description cap applied only to truthy string descriptions. -/
def validateTeamBody (name description : JVal) : TeamValidation :=
  if ¬ truthy name ∨ ¬ isStringVal name then
    .badRequest "Team name is required and must be a string"
  else if (strVal name).length < 2 ∨ 50 < (strVal name).length then
    .badRequest "Team name must be between 2 and 50 characters"
  else if truthy description ∧ isStringVal description ∧ 500 < (strVal description).length then
    .badRequest "Description must not exceed 500 characters"
  else
    .valid

/-- A team row as the insert returns it. -/
structure Team where
  id : String
  name : String
  description : Option String
  owner_id : String
deriving DecidableEq, Repr

/-- The `POST /api/teams` handler after authentication (part_008 lines
76–148): validation, team insert, member insert with compensating team
delete on failure. Returns the ids of the teams the handler deleted and
the response status (400 / 500 / 201). -/
def postTeamsRun (name description : JVal) (createResult : Except String Team)
    (memberError : Option String) : List String × Nat :=
  match validateTeamBody name description with
  | .badRequest _ => ([], 400)
  | .valid =>
    match createResult with
    | .error _ => ([], 500)
    | .ok team =>
      match memberError with
      | some _ => ([team.id], 500)
      | none => ([], 201)

/-- The flow of `useTeams.createTeam` (use-teams.ts lines 56–137) after the session and
environment guards: the team POST, then the member POST; when the member
POST fails the hook DELETEs the just-created team and throws
`error.message || "Failed to add team member"`. Returns the ids of the
teams the hook deleted, the teams state afterwards, and the result the
caller sees. -/
def createTeamHookRun (teams : List Team) (team : Team)
    (teamInsertOk : Bool) (teamErrMsg : Option String)
    (memberInsertOk : Bool) (memberErrMsg : Option String) :
    List String × List Team × Except String Team :=
  if ¬ teamInsertOk then
    ([], teams, .error (teamErrMsg.getD "Failed to create team"))
  else if ¬ memberInsertOk then
    ([team.id], teams, .error (memberErrMsg.getD "Failed to add team member"))
  else
    ([], teams ++ [team], .ok team)

/-! ## The `PerformanceMonitor` (src/utils/performance.ts, lines 47–87)

The monitor's mutable fields become a state record; each method becomes a
state transformer. Numeric durations/timestamps are modelled as integers
(no arithmetic on them is at stake in the claims) and the opaque
`metadata` record as an optional string. -/

/-- The `PerformanceMetric` record. -/
structure PerformanceMetric where
  name : String
  duration : Int
  timestamp : Int
  metadata : Option String := none
deriving DecidableEq, Repr

/-- The `APIRequestMetric` record. -/
structure APIRequestMetric where
  endpoint : String
  method : String
  duration : Int
  success : Bool
  timestamp : Int
  error : Option String := none
deriving DecidableEq, Repr

/-- The `RealtimeConnectionStatus` record. -/
structure RealtimeConnectionStatus where
  channelName : String
  state : String
  connectedAt : Option Int := none
  lastError : Option String := none
  reconnectCount : Nat := 0
deriving DecidableEq, Repr

/-- The monitor's private fields (`metrics`, `apiMetrics`,
`realtimeConnections` as an insertion-ordered map). -/
structure MonitorState where
  metrics : List PerformanceMetric
  apiMetrics : List APIRequestMetric
  realtimeConnections : List (String × RealtimeConnectionStatus)
deriving DecidableEq, Repr

/-- The cap `maxMetrics = 1000`. -/
def maxMetrics : Nat := 1000

/-- The fresh monitor singleton. -/
def initMonitor : MonitorState :=
  { metrics := [], apiMetrics := [], realtimeConnections := [] }

/-- The method `recordMetric` (performance.ts lines 56–68): push, then `shift()` when
the length exceeds `maxMetrics`. -/
def recordMetric (s : MonitorState) (m : PerformanceMetric) : MonitorState :=
  let pushed := s.metrics ++ [m]
  { s with metrics := if maxMetrics < pushed.length then pushed.drop 1 else pushed }

/-- The method `recordAPIRequest` (performance.ts lines 73–87): push, then `shift()`
when the length exceeds `maxMetrics`. -/
def recordAPIRequest (s : MonitorState) (m : APIRequestMetric) : MonitorState :=
  let pushed := s.apiMetrics ++ [m]
  { s with apiMetrics := if maxMetrics < pushed.length then pushed.drop 1 else pushed }

/-- The semantics of `Map.prototype.set`: overwrite in place when the key exists (insertion
order kept), append otherwise. -/
def mapSet {β : Type} (l : List (String × β)) (k : String) (v : β) :
    List (String × β) :=
  if l.any fun kv => kv.1 = k then
    l.map fun kv => if kv.1 = k then (k, v) else kv
  else
    l ++ [(k, v)]

/-- The method `updateRealtimeConnection` (performance.ts lines 92–101). -/
def updateRealtimeConnection (s : MonitorState) (st : RealtimeConnectionStatus) :
    MonitorState :=
  { s with realtimeConnections := mapSet s.realtimeConnections st.channelName st }

/-- The method `clear` (performance.ts lines 159–163). -/
def clearMonitor (_s : MonitorState) : MonitorState :=
  initMonitor

/-- One mutating operation of the monitor (the getters do not change the
state and need no step). -/
inductive MonitorOp where
  | record (m : PerformanceMetric)
  | recordAPI (m : APIRequestMetric)
  | updateConn (st : RealtimeConnectionStatus)
  | clear
deriving DecidableEq, Repr

/-- One step of the monitor. -/
def monitorStep (s : MonitorState) : MonitorOp → MonitorState
  | .record m => recordMetric s m
  | .recordAPI m => recordAPIRequest s m
  | .updateConn st => updateRealtimeConnection s st
  | .clear => clearMonitor s

/-- Running a sequence of operations from the fresh singleton. -/
def runMonitorOps (ops : List MonitorOp) : MonitorState :=
  ops.foldl monitorStep initMonitor

/-! ## Theorems for the claims -/

/-- C1: for every create/update/delete reconciliation on the issues
collection whose authoritative request fails, the collection after
rollback is structurally equal to the snapshot taken immediately before
the optimistic transform, and the failure is re-thrown to the caller. -/
theorem c1_failed_reconciliation_rolls_back (projectId : String) (issues : List Issue)
    (input : IssueInput) (laneTopOrder : Option String) (now : Nat) (nowIso : String)
    (issueId : String) (updates : IssuePatch) (e₁ e₂ e₃ : String) :
    createIssueRun projectId issues input laneTopOrder now nowIso (.error e₁) =
      (issues, .error e₁) ∧
    updateIssueRun issues issueId updates nowIso (.error e₂) = (issues, .error e₂) ∧
    deleteIssueRun issues issueId (some e₃) = (issues, .error e₃) :=
  ⟨rfl, rfl, rfl⟩

/-- C3: `optimisticAdd` appends without touching the input elements, and
for an id no item carries, `optimisticUpdate` and `optimisticDelete`
return collections equal to the input (total on id lookup: no-op on a
missing id, no error). In this embedding the three operations are pure
Lean functions of the input collection, so no in-place mutation exists. -/
theorem c3_store_ops_pure_and_total {α : Type} [DecidableEq α]
    (items : List (Item α)) (newItem : Item α) (itemId : String) (patch : ItemPatch α)
    (hmissing : ∀ x ∈ items, x.id ≠ itemId) :
    optimisticAdd items newItem = items ++ [newItem] ∧
    optimisticUpdate Item.id itemApplyPatch items itemId patch = items ∧
    optimisticDelete Item.id items itemId = items := by
  refine ⟨rfl, ?_, ?_⟩
  · unfold optimisticUpdate
    rw [List.map_congr_left (fun x hx => if_neg (hmissing x hx))]
    simp
  · unfold optimisticDelete
    exact List.filter_eq_self.mpr fun x hx => decide_eq_true (hmissing x hx)

/-- Witness for C3 at a concrete collection and a concrete missing id. -/
theorem c3_store_ops_pure_and_total_witness :
    optimisticAdd [Item.mk "a" (0 : Nat)] (Item.mk "b" 1) =
      [Item.mk "a" 0] ++ [Item.mk "b" 1] ∧
    optimisticUpdate Item.id itemApplyPatch [Item.mk "a" (0 : Nat)] "c" {} =
      [Item.mk "a" 0] ∧
    optimisticDelete Item.id [Item.mk "a" (0 : Nat)] "c" = [Item.mk "a" 0] :=
  c3_store_ops_pure_and_total [Item.mk "a" 0] (Item.mk "b" 1) "c" {} (by decide)

/-- C8: a DELETE change-feed event for id X removes every issue with id X
from the collection, keeps every other issue, and when no issue carries X
the collection is returned unchanged (a no-op, not an error). -/
theorem c8_delete_event_total (issues : List Issue) (deletedId : String) :
    (∀ issue ∈ deleteEventHandler issues deletedId, issue.id ≠ deletedId) ∧
    (∀ issue ∈ issues, issue.id ≠ deletedId → issue ∈ deleteEventHandler issues deletedId) ∧
    ((∀ issue ∈ issues, issue.id ≠ deletedId) → deleteEventHandler issues deletedId = issues) := by
  refine ⟨?_, ?_, ?_⟩
  · intro issue hmem
    have := List.of_mem_filter hmem
    exact of_decide_eq_true this
  · intro issue hmem hne
    exact List.mem_filter.mpr ⟨hmem, decide_eq_true hne⟩
  · intro h
    exact List.filter_eq_self.mpr fun issue hmem => decide_eq_true (h issue hmem)

/-- C9: in both team-creation paths, when inserting the creator as an
`owner` row fails after the team row was created, the just-created team
row is deleted before the error is reported: the route responds 500 having
deleted exactly that team id, and the hook throws having deleted exactly
that team id and leaves the teams state unchanged. -/
theorem c9_member_failure_compensates (name description : JVal) (team : Team)
    (memberErrorMsg : String) (teams : List Team) (teamErrMsg memberErrMsg : Option String)
    (hvalid : validateTeamBody name description = .valid) :
    postTeamsRun name description (.ok team) (some memberErrorMsg) = ([team.id], 500) ∧
    createTeamHookRun teams team true teamErrMsg false memberErrMsg =
      ([team.id], teams, .error (memberErrMsg.getD "Failed to add team member")) := by
  constructor
  · unfold postTeamsRun
    rw [hvalid]
  · simp [createTeamHookRun]

/-- Witness for C9 at a concrete valid body, team and failure. -/
theorem c9_member_failure_compensates_witness :
    postTeamsRun (.jstr "ab") .jnull
        (.ok (Team.mk "t1" "ab" none "u1")) (some "boom") = (["t1"], 500) ∧
    createTeamHookRun [] (Team.mk "t1" "ab" none "u1") true none false (some "boom") =
      (["t1"], [], .error "boom") :=
  c9_member_failure_compensates (.jstr "ab") .jnull (Team.mk "t1" "ab" none "u1")
    "boom" [] none (some "boom") (by decide)

/-- C6: after a successful `createIssue` reconciliation, the issues
collection no longer contains the client-temporary id `temp-<timestamp>`
and instead contains, at the same position (the one the optimistic entry
occupied, the end of the list), the server-confirmed issue: the final
collection is exactly the prior issues followed by the server row. -/
theorem c6_create_success_replaces_temp (projectId : String) (issues : List Issue)
    (input : IssueInput) (laneTopOrder : Option String) (now : Nat) (nowIso : String)
    (data : Issue)
    (hfresh : ∀ issue ∈ issues, issue.id ≠ tempIssueId now)
    (hdata : data.id ≠ tempIssueId now) :
    (createIssueRun projectId issues input laneTopOrder now nowIso (.ok data)).1 =
      issues ++ [data] ∧
    (∀ issue ∈ (createIssueRun projectId issues input laneTopOrder now nowIso (.ok data)).1,
      issue.id ≠ tempIssueId now) ∧
    (createIssueRun projectId issues input laneTopOrder now nowIso (.ok data)).2 =
      .ok data := by
  have hrepl :
      (createIssueRun projectId issues input laneTopOrder now nowIso (.ok data)).1 =
        issues ++ [data] := by
    unfold createIssueRun
    dsimp only [optimisticAdd]
    rw [List.map_append, List.map_congr_left (fun x hx => if_neg (hfresh x hx))]
    simp
  refine ⟨hrepl, ?_, rfl⟩
  intro issue hmem
  rw [hrepl] at hmem
  rcases List.mem_append.mp hmem with h | h
  · exact hfresh issue h
  · rw [List.mem_singleton.mp h]
    exact hdata

/-- Witness for C6: a concrete collection, temp timestamp and server row. -/
theorem c6_create_success_replaces_temp_witness :
    (createIssueRun "p1"
        [Issue.mk "a" "p1" "t" none "s1" "low" none "r1" "1" "c" "u"]
        (IssueInput.mk "t2" none "s1" "low" none "r1") (some "1") 123 "iso"
        (.ok (Issue.mk "srv-9" "p1" "t2" none "s1" "low" none "r1" "2" "c2" "u2"))).1 =
      [Issue.mk "a" "p1" "t" none "s1" "low" none "r1" "1" "c" "u"] ++
        [Issue.mk "srv-9" "p1" "t2" none "s1" "low" none "r1" "2" "c2" "u2"] ∧
    (∀ issue ∈ (createIssueRun "p1"
        [Issue.mk "a" "p1" "t" none "s1" "low" none "r1" "1" "c" "u"]
        (IssueInput.mk "t2" none "s1" "low" none "r1") (some "1") 123 "iso"
        (.ok (Issue.mk "srv-9" "p1" "t2" none "s1" "low" none "r1" "2" "c2" "u2"))).1,
      issue.id ≠ tempIssueId 123) ∧
    (createIssueRun "p1"
        [Issue.mk "a" "p1" "t" none "s1" "low" none "r1" "1" "c" "u"]
        (IssueInput.mk "t2" none "s1" "low" none "r1") (some "1") 123 "iso"
        (.ok (Issue.mk "srv-9" "p1" "t2" none "s1" "low" none "r1" "2" "c2" "u2"))).2 =
      .ok (Issue.mk "srv-9" "p1" "t2" none "s1" "low" none "r1" "2" "c2" "u2") :=
  c6_create_success_replaces_temp "p1"
    [Issue.mk "a" "p1" "t" none "s1" "low" none "r1" "1" "c" "u"]
    (IssueInput.mk "t2" none "s1" "low" none "r1") (some "1") 123 "iso"
    (Issue.mk "srv-9" "p1" "t2" none "s1" "low" none "r1" "2" "c2" "u2")
    (by decide) (by decide)

/-- A two-lane board refuting C2 and C5 as stated: lane `s1` holds issue
`a` with rank `"5"` (C2) / rank `"7"` (irrelevant to C2's lane count), lane
`s2` holds issue `b` with rank `"1"`. -/
def boardC2 : List Issue :=
  [Issue.mk "a" "p" "t" none "s1" "low" none "r" "5" "c" "u",
   Issue.mk "b" "p" "t" none "s2" "low" none "r" "1" "c" "u"]

/-- Counterexample to C2 as stated: dropping issue `b` on the `s1` column
(no explicit target position) sends rank `"2"`, although lane `s1` already
holds an issue of rank `"5"`: the assigned rank is the lane's issue count
plus one, not one more than the lane's maximum rank, so it is not strictly
greater than every rank present. -/
theorem c2_counterexample_rank_not_above_lane :
    handleDragEnd boardC2 "b" "status-s1" = some ("b", "s1", "2") ∧
    Issue.mk "a" "p" "t" none "s1" "low" none "r" "5" "c" "u" ∈ laneIssues boardC2 "s1" ∧
    ¬ rank "5" < rank "2" := by
  decide

/-- C2 amended: moving an issue to a target lane with no explicit target
position (a drop on the lane's column) sends an order rank equal to one
plus the number of issues currently grouped into that lane — insert-at-end
by count, which exceeds every existing rank only when the lane's ranks
stay within its issue count. -/
theorem c2_amended_move_assigns_count_rank (issues : List Issue)
    (activeId statusId : String) (activeIssue : Issue)
    (hfind : issues.find? (fun issue => issue.id = activeId) = some activeIssue) :
    handleDragEnd issues activeId ("status-" ++ statusId) =
      some (activeId, statusId, toString ((laneIssues issues statusId).length + 1)) := by
  have h1 : strHasLeading ("status-" ++ statusId) "status-" = true := by
    unfold strHasLeading
    rw [String.data_append, List.take_left]
    exact beq_self_eq_true _
  have h2 : strDropChars ("status-" ++ statusId) 7 = statusId := by
    unfold strDropChars
    rw [String.data_append]
    have h7 : ("status-" : String).data.length = 7 := rfl
    rw [← h7, List.drop_left]
  simp [handleDragEnd, hfind, h1, h2]

/-- Witness for the amended C2 at the concrete two-lane board. -/
theorem c2_amended_move_assigns_count_rank_witness :
    handleDragEnd boardC2 "b" ("status-" ++ "s1") =
      some ("b", "s1", toString ((laneIssues boardC2 "s1").length + 1)) :=
  c2_amended_move_assigns_count_rank boardC2 "b" "s1"
    (Issue.mk "b" "p" "t" none "s2" "low" none "r" "1" "c" "u") (by decide)

/-- A two-lane board refuting C5 as stated: lane `s1` holds issue `a`
with rank `"7"` at lane position 0, lane `s2` holds issue `b`. -/
def boardC5 : List Issue :=
  [Issue.mk "a" "p" "t" none "s1" "low" none "r" "7" "c" "u",
   Issue.mk "b" "p" "t" none "s2" "low" none "r" "1" "c" "u"]

/-- Counterexample to C5 as stated: dropping issue `b` on issue `a`
(occupying a position in a different lane) sends rank `"1"` — the target's
1-based lane position — while the occupying issue's rank is `"7"`: the
occupant's rank is not reused. -/
theorem c5_counterexample_rank_not_reused :
    handleDragEnd boardC5 "b" "a" = some ("b", "s1", "1") ∧
    laneIssues boardC5 "s1" = [Issue.mk "a" "p" "t" none "s1" "low" none "r" "7" "c" "u"] ∧
    (Issue.mk "a" "p" "t" none "s1" "low" none "r" "7" "c" "u").order = "7" ∧
    ("1" : String) ≠ "7" := by
  decide

/-- C5 amended: when an issue is dropped on an issue of a different lane,
the order rank sent to the authoritative store is one plus the zero-based
index of the occupying issue within its lane — its 1-based lane position,
not its stored rank. -/
theorem c5_amended_drop_sends_position (issues : List Issue)
    (activeId overId : String) (activeIssue overIssue : Issue)
    (hactive : issues.find? (fun issue => issue.id = activeId) = some activeIssue)
    (hnotcol : strHasLeading overId "status-" = false)
    (hover : issues.find? (fun issue => issue.id = overId) = some overIssue)
    (hdiff : activeIssue.status_id ≠ overIssue.status_id) :
    handleDragEnd issues activeId overId =
      some (activeId, overIssue.status_id,
        toString ((laneIssues issues overIssue.status_id).findIdx
          (fun issue => issue.id = overId) + 1)) := by
  simp [handleDragEnd, hactive, hnotcol, hover, hdiff]

/-- Witness for the amended C5 at the concrete two-lane board. -/
theorem c5_amended_drop_sends_position_witness :
    handleDragEnd boardC5 "b" "a" =
      some ("b", "s1",
        toString ((laneIssues boardC5 "s1").findIdx (fun issue => issue.id = "a") + 1)) :=
  c5_amended_drop_sends_position boardC5 "b" "a"
    (Issue.mk "b" "p" "t" none "s2" "low" none "r" "1" "c" "u")
    (Issue.mk "a" "p" "t" none "s1" "low" none "r" "7" "c" "u")
    (by decide) (by decide) (by decide) (by decide)

/-- The ids after an `optimisticAdd` are the old ids with the new id at
the end. -/
lemma idsOf_optimisticAdd {α : Type} (items : List (Item α)) (item : Item α) :
    idsOf (optimisticAdd items item) = idsOf items ++ [item.id] := by
  simp [idsOf, optimisticAdd]

/-- An `optimisticUpdate` whose patch leaves the id field alone does not
change the id list. -/
lemma idsOf_optimisticUpdate {α : Type} (items : List (Item α)) (itemId : String)
    (patch : ItemPatch α) (hid : patch.id = none) :
    idsOf (optimisticUpdate Item.id itemApplyPatch items itemId patch) = idsOf items := by
  unfold idsOf optimisticUpdate
  rw [List.map_map]
  refine List.map_congr_left fun x _ => ?_
  by_cases h : x.id = itemId <;> simp [h, itemApplyPatch, hid]

/-- The ids after an `optimisticDelete` are the old ids with the deleted
id filtered out. -/
lemma idsOf_optimisticDelete {α : Type} (items : List (Item α)) (itemId : String) :
    idsOf (optimisticDelete Item.id items itemId) =
      (idsOf items).filter fun i => i ≠ itemId := by
  unfold idsOf optimisticDelete
  simp only [ne_eq, decide_not]
  induction items with
  | nil => rfl
  | cons x xs ih =>
    by_cases h : x.id = itemId <;> simp [List.filter_cons, h, ih]

/-- Counterexample to C4 as stated: the store's `add` appends blindly, so
the two-add sequence `add {id:"a"}, add {id:"a"}` from the empty (hence
duplicate-free) collection yields the id list `["a", "a"]`, which has a
duplicate id. -/
theorem c4_counterexample_duplicate_add :
    (idsOf ([] : List (Item Unit))).Nodup ∧
    idsOf (applyCollOps ([] : List (Item Unit))
      [CollOp.add (Item.mk "a" ()), CollOp.add (Item.mk "a" ())]) = ["a", "a"] ∧
    ¬ (["a", "a"] : List String).Nodup := by
  decide

/-- C4 amended: for every sequence of add/update/remove operations in
which each add's id is absent from the collection at the moment it is
applied and no update patches the id field, starting from a
duplicate-free collection, the resulting collection carries exactly the
expected ids (adds append, removes erase, updates keep) with no
duplicate ids. -/
theorem c4_amended_safe_traces {α : Type} [DecidableEq α]
    (init : List (Item α)) (ops : List (CollOp α))
    (hnodup : (idsOf init).Nodup) (hsafe : safeTrace init ops) :
    idsOf (applyCollOps init ops) = expectedIds (idsOf init) ops ∧
    (idsOf (applyCollOps init ops)).Nodup := by
  induction ops generalizing init with
  | nil => exact ⟨rfl, hnodup⟩
  | cons op rest ih =>
    obtain ⟨hop, hrest⟩ := hsafe
    have hstep : idsOf (applyCollOp init op) = expectedIdsStep (idsOf init) op := by
      cases op with
      | add item => exact idsOf_optimisticAdd init item
      | update itemId patch => exact idsOf_optimisticUpdate init itemId patch hop
      | remove itemId => exact idsOf_optimisticDelete init itemId
    have hstepNodup : (idsOf (applyCollOp init op)).Nodup := by
      rw [hstep]
      cases op with
      | add item => simp [expectedIdsStep, List.nodup_append, hnodup, hop]
      | update itemId patch => exact hnodup
      | remove itemId => exact hnodup.filter _
    have hrec := ih (applyCollOp init op) hstepNodup hrest
    refine ⟨?_, hrec.2⟩
    calc idsOf (applyCollOps init (op :: rest))
        = idsOf (applyCollOps (applyCollOp init op) rest) := rfl
      _ = expectedIds (idsOf (applyCollOp init op)) rest := hrec.1
      _ = expectedIds (idsOf init) (op :: rest) := by rw [hstep]; rfl

/-- Witness for the amended C4: a concrete safe trace (fresh add, id-free
update, remove) from a concrete duplicate-free collection. -/
theorem c4_amended_safe_traces_witness :
    idsOf (applyCollOps [Item.mk "a" (0 : Nat)]
        [CollOp.add (Item.mk "b" 1), CollOp.update "b" { payload := some 2 },
         CollOp.remove "a"]) =
      expectedIds (idsOf [Item.mk "a" (0 : Nat)])
        [CollOp.add (Item.mk "b" 1), CollOp.update "b" { payload := some 2 },
         CollOp.remove "a"] ∧
    (idsOf (applyCollOps [Item.mk "a" (0 : Nat)]
        [CollOp.add (Item.mk "b" 1), CollOp.update "b" { payload := some 2 },
         CollOp.remove "a"])).Nodup :=
  c4_amended_safe_traces [Item.mk "a" 0]
    [CollOp.add (Item.mk "b" 1), CollOp.update "b" { payload := some 2 },
     CollOp.remove "a"] (by decide) (by decide)

/-- The empty string is the string of length zero. -/
lemma eq_empty_iff_length_zero (s : String) : s = "" ↔ s.length = 0 := by
  constructor
  · intro h
    simp [h]
  · intro h
    cases s with
    | mk data =>
      simp [String.length] at h
      simp [h]

/-- The route's third validation check (truthy string description longer
than 500) is equivalent to "the description is a string longer than 500
characters": a string longer than 500 characters is nonempty, hence
truthy. -/
lemma descCheck_iff (description : JVal) :
    truthy description ∧ isStringVal description ∧ 500 < (strVal description).length ↔
      isStringVal description = true ∧ 500 < (strVal description).length := by
  cases description with
  | jstr t =>
    simp only [truthy, isStringVal, strVal, true_and]
    constructor
    · rintro ⟨-, h⟩
      exact h
    · intro h
      refine ⟨?_, h⟩
      have : t.length ≠ 0 := by omega
      simpa [eq_empty_iff_length_zero] using this
  | jnum n => simp [truthy, isStringVal]
  | jbool b => simp [truthy, isStringVal]
  | jnull => simp [truthy, isStringVal]
  | jundefined => simp [truthy, isStringVal]

/-- The validation section rejects exactly the bodies C7 describes. -/
lemma validateTeamBody_ne_valid_iff (name description : JVal) :
    validateTeamBody name description ≠ TeamValidation.valid ↔
      (isStringVal name = false ∨ (strVal name).length < 2 ∨ 50 < (strVal name).length ∨
        (isStringVal description = true ∧ 500 < (strVal description).length)) := by
  cases name with
  | jstr s =>
    unfold validateTeamBody
    simp only [truthy, isStringVal, strVal]
    split_ifs with h1 h2 h3
    · simp only [ne_eq, reduceCtorEq, not_false_iff, true_iff]
      simp only [Bool.not_eq_true, decide_eq_false_iff_not, not_not, decide_eq_true_eq] at h1
      rcases h1 with h | h
      · have := (eq_empty_iff_length_zero s).mp h
        right; left; omega
      · simp at h
    · simp only [ne_eq, reduceCtorEq, not_false_iff, true_iff]
      right
      rcases h2 with h | h
      · left; exact h
      · right; left; exact h
    · simp only [ne_eq, reduceCtorEq, not_false_iff, true_iff]
      right; right; right
      exact (descCheck_iff description).mp h3
    · simp only [ne_eq, not_true_eq_false, false_iff]
      push_neg at h2
      intro hcon
      rcases hcon with h | h | h | h
      · simp at h
      · omega
      · omega
      · exact h3 ((descCheck_iff description).mpr h)
  | jnum n => simp [validateTeamBody, truthy, isStringVal, strVal]
  | jbool b => simp [validateTeamBody, truthy, isStringVal, strVal]
  | jnull => simp [validateTeamBody, truthy, isStringVal, strVal]
  | jundefined => simp [validateTeamBody, truthy, isStringVal, strVal]

/-- C7: an authenticated `POST /api/teams` responds 400 exactly when the
name is missing or not a string, or its length falls outside 2–50, or the
description is a string longer than 500 characters; every other body
passes validation and proceeds to team creation (responding 201 or 500,
never 400). -/
theorem c7_team_validation_400_iff (name description : JVal)
    (createResult : Except String Team) (memberError : Option String) :
    (postTeamsRun name description createResult memberError).2 = 400 ↔
      (isStringVal name = false ∨ (strVal name).length < 2 ∨ 50 < (strVal name).length ∨
        (isStringVal description = true ∧ 500 < (strVal description).length)) := by
  rw [← validateTeamBody_ne_valid_iff name description]
  unfold postTeamsRun
  cases hv : validateTeamBody name description with
  | badRequest msg => simp
  | valid =>
    cases createResult with
    | error e => simp
    | ok team =>
      cases memberError with
      | none => simp
      | some m => simp

/-- Both record buffers stay within `maxMetrics` across every monitor
operation. -/
lemma monitorStep_bounded (s : MonitorState) (op : MonitorOp)
    (h : s.metrics.length ≤ maxMetrics ∧ s.apiMetrics.length ≤ maxMetrics) :
    (monitorStep s op).metrics.length ≤ maxMetrics ∧
    (monitorStep s op).apiMetrics.length ≤ maxMetrics := by
  obtain ⟨h1, h2⟩ := h
  cases op with
  | record m =>
    unfold monitorStep recordMetric
    constructor
    · dsimp only
      split_ifs with hlen
      · simp only [List.length_drop, List.length_append, List.length_singleton]
        omega
      · simp only [List.length_append, List.length_singleton] at hlen ⊢
        omega
    · exact h2
  | recordAPI m =>
    unfold monitorStep recordAPIRequest
    constructor
    · exact h1
    · dsimp only
      split_ifs with hlen
      · simp only [List.length_drop, List.length_append, List.length_singleton]
        omega
      · simp only [List.length_append, List.length_singleton] at hlen ⊢
        omega
  | updateConn st => exact ⟨h1, h2⟩
  | clear => exact ⟨by simp [monitorStep, clearMonitor, initMonitor],
      by simp [monitorStep, clearMonitor, initMonitor]⟩

/-- The bound propagates through any operation sequence. -/
lemma foldl_monitorStep_bounded (ops : List MonitorOp) (s : MonitorState)
    (h : s.metrics.length ≤ maxMetrics ∧ s.apiMetrics.length ≤ maxMetrics) :
    (ops.foldl monitorStep s).metrics.length ≤ maxMetrics ∧
    (ops.foldl monitorStep s).apiMetrics.length ≤ maxMetrics := by
  induction ops generalizing s with
  | nil => exact h
  | cons op rest ih => exact ih (monitorStep s op) (monitorStep_bounded s op h)

/-- C10: after every sequence of monitor operations the `metrics` and
`apiMetrics` buffers hold at most 1000 entries, and when a record call
finds its buffer full the oldest entry is discarded: the buffer becomes
the previous entries minus the first, with the new entry at the end. -/
theorem c10_monitor_buffers_bounded :
    (∀ ops : List MonitorOp,
      (runMonitorOps ops).metrics.length ≤ maxMetrics ∧
      (runMonitorOps ops).apiMetrics.length ≤ maxMetrics) ∧
    (∀ (s : MonitorState) (m : PerformanceMetric), s.metrics.length = maxMetrics →
      (recordMetric s m).metrics = s.metrics.drop 1 ++ [m]) ∧
    (∀ (s : MonitorState) (m : APIRequestMetric), s.apiMetrics.length = maxMetrics →
      (recordAPIRequest s m).apiMetrics = s.apiMetrics.drop 1 ++ [m]) := by
  refine ⟨?_, ?_, ?_⟩
  · intro ops
    exact foldl_monitorStep_bounded ops initMonitor (by simp [initMonitor])
  · intro s m hfull
    unfold recordMetric
    dsimp only
    rw [if_pos (by simp [hfull, maxMetrics])]
    exact List.drop_append_of_le_length (by rw [hfull]; decide)
  · intro s m hfull
    unfold recordAPIRequest
    dsimp only
    rw [if_pos (by simp [hfull, maxMetrics])]
    exact List.drop_append_of_le_length (by rw [hfull]; decide)

end LimitedFE
